import Mathlib

/-!
Shallow embedding of the offline/online sync engine of the emogo frontend
(src/frontend/app/services/sync.js, src/frontend/app/utils/storage.js,
src/frontend/app/services/api.js).

Modelling conventions:
- ISO timestamp strings are modelled as natural numbers (their epoch value);
  the code only compares them and stores them.
- JavaScript nullish fields are Option; JS truthiness of strings treats the
  empty string as falsy, captured by jsStrOpt below.
- The remote API is a record of pure functions (one behaviour per call shape);
  errors are the message string the client observes on a thrown Error.
- Async storage is passed explicitly as a Store value; a JS throw is an
  Except.error threaded to the nearest enclosing try/catch.
-/

namespace EmoGo

/-- Decidable equality for Except results, so concrete runs can be checked
by decide. -/
instance {e a : Type} [DecidableEq e] [DecidableEq a] :
    DecidableEq (Except e a) := fun x y =>
  match x, y with
  | Except.ok v, Except.ok w =>
    if h : v = w then isTrue (by rw [h])
    else isFalse (by intro hc; cases hc; exact h rfl)
  | Except.error v, Except.error w =>
    if h : v = w then isTrue (by rw [h])
    else isFalse (by intro hc; cases hc; exact h rfl)
  | Except.ok _, Except.error _ => isFalse (by intro hc; cases hc)
  | Except.error _, Except.ok _ => isFalse (by intro hc; cases hc)

/-- JS string truthiness: null/undefined/"" are falsy.  Returns the string
when truthy, none otherwise. -/
def jsStrOpt : Option String → Option String
  | some s => if s = "" then none else some s
  | none => none

/-- JS idiom a || b on nullable strings (empty string falsy). -/
def jsOrStrOpt (a b : Option String) : Option String :=
  (jsStrOpt a).or (jsStrOpt b)

/-- JS idiom a || d where a is a nullable string and d a string default. -/
def jsStrOr (a : Option String) (d : String) : String :=
  ((jsStrOpt a).getD d)

/-- JS idiom a || d on nullable numbers (0 falsy). -/
def jsNumOr (a : Option Nat) (d : Nat) : Nat :=
  match a with
  | some n => if n = 0 then d else n
  | none => d

/-- Char-list prefix test (hay, needle). -/
def startsWithList : List Char → List Char → Bool
  | _, [] => true
  | [], _ :: _ => false
  | h :: ht, n :: nt => h == n && startsWithList ht nt

/-- Char-list substring test. -/
def containsList (needle : List Char) : List Char → Bool
  | [] => startsWithList [] needle
  | h :: t => startsWithList (h :: t) needle || containsList needle t

/-- message.includes(tok): substring containment. -/
def strIncludes (hay needle : String) : Bool :=
  containsList needle.data hay.data

/-- Normalized video payload {url, file_size, duration, thumbnail_url}
(sync.js buildVideoPayload output / entry video field). -/
structure Video where
  url : String
  file_size : Option Nat := none
  duration : Option Nat := none
  thumbnail_url : Option String := none
deriving Repr, DecidableEq

/-- Raw result of POST /upload/video; the client tolerates several field
names (url | file_url | file_path, file_size | size_bytes). -/
structure UploadResult where
  url : Option String := none
  file_url : Option String := none
  file_path : Option String := none
  file_size : Option Nat := none
  size_bytes : Option Nat := none
  duration : Option Nat := none
  thumbnail_url : Option String := none
deriving Repr, DecidableEq

/-- GPS payload; floats are irrelevant to the claims so coordinates are Int. -/
structure Location where
  latitude : Int
  longitude : Int
  address : Option String := none
  accuracy : Option Nat := none
deriving Repr, DecidableEq

/-- Mood payload pushed to the server: {level, emoji, label}. -/
structure MoodPayload where
  level : Nat
  emoji : String
  label : String
deriving Repr, DecidableEq

/-- Mood object as read back from the server during pull
(pullFromServer reads entry.mood?.type and entry.mood?.intensity). -/
structure RemoteMood where
  type : Option String := none
  intensity : Option Nat := none
deriving Repr, DecidableEq

/-- Server-side entry; mongoId embeds the JSON field _id. -/
structure RemoteEntry where
  mongoId : String
  client_id : Option String := none
  memo : Option String := none
  mood : Option RemoteMood := none
  video : Option Video := none
  location : Option Location := none
  created_at : Nat := 0
  updated_at : Nat := 0
deriving Repr, DecidableEq

/-- Payload of POST /entries and PUT /entries/{id} built by syncSingleRecord. -/
structure EntryData where
  user_id : String
  client_id : String
  memo : Option String := none
  mood : Option MoodPayload := none
  video : Option Video := none
  location : Option Location := none
  created_at : Nat := 0
deriving Repr, DecidableEq

/-- Query parameters passed to api.getEntries. -/
structure GetQuery where
  user_id : String
  page : Option Nat := none
  page_size : Option Nat := none
  limit : Option Nat := none
deriving Repr, DecidableEq

/-- Response of GET /entries as consumed by sync.js (entries plus the
optional pagination metadata the pull loop inspects). -/
structure EntriesResponse where
  entries : Option (List RemoteEntry) := none
  total_pages : Option Nat := none
  total : Option Nat := none
deriving Repr, DecidableEq

/-- Result of api.checkHealth (normalized; it never throws in api.js). -/
structure HealthResp where
  connected : Bool
deriving Repr, DecidableEq

/-- A LocalRecord as persisted by storage.js (field id is the client_id). -/
structure LocalRecord where
  id : String
  serverId : Option String := none
  content : Option String := none
  memo : Option String := none
  mood : Option String := none
  moodIntensity : Option Nat := none
  location : Option Location := none
  videoUri : Option String := none
  hasVideo : Bool := false
  videoUploaded : Bool := false
  videoDuration : Option Nat := none
  serverVideoData : Option Video := none
  createdAt : Nat := 0
  updatedAt : Option Nat := none
  syncedAt : Option Nat := none
  synced : Bool := false
deriving Repr, DecidableEq

/-- Input object of addRecord / saveRecord: id and createdAt may be absent
and are then generated (storage.js addRecord lines 62-67). -/
structure NewRecord where
  id : Option String := none
  serverId : Option String := none
  content : Option String := none
  memo : Option String := none
  mood : Option String := none
  moodIntensity : Option Nat := none
  location : Option Location := none
  videoUri : Option String := none
  hasVideo : Bool := false
  videoUploaded : Bool := false
  videoDuration : Option Nat := none
  serverVideoData : Option Video := none
  createdAt : Option Nat := none
  updatedAt : Option Nat := none
  synced : Bool := false
deriving Repr, DecidableEq

/-- A partial-update object handed to storage.js updateRecord.  An outer
some means the caller listed the key (possibly with a null value).
updatedAt may be supplied by a caller (the pull merge does) but the spread
in updateRecord overwrites it with the local current time. -/
structure Updates where
  serverId : Option (Option String) := none
  content : Option (Option String) := none
  mood : Option (Option String) := none
  moodIntensity : Option (Option Nat) := none
  location : Option (Option Location) := none
  videoUri : Option (Option String) := none
  hasVideo : Option Bool := none
  videoUploaded : Option Bool := none
  serverVideoData : Option (Option Video) := none
  synced : Option Bool := none
  syncedAt : Option Nat := none
  updatedAt : Option Nat := none
deriving Repr, DecidableEq

/-- Whole persisted client state: the records array (RECORDS_KEY) and the
sync cursor (LAST_SYNC_KEY). -/
structure Store where
  records : List LocalRecord := []
  lastSyncTime : Option Nat := none
deriving Repr, DecidableEq

/-- storage.js getAllRecords. -/
def getAllRecords (s : Store) : List LocalRecord :=
  s.records

/-- The object spread { ...records[index], ...updates, updatedAt: now } of
storage.js updateRecord: listed keys overwrite, then updatedAt is forced to
the local current time (so u.updatedAt is never read). -/
def applyUpdates (r : LocalRecord) (u : Updates) (now : Nat) : LocalRecord :=
  { id := r.id
    serverId := u.serverId.getD r.serverId
    content := u.content.getD r.content
    memo := r.memo
    mood := u.mood.getD r.mood
    moodIntensity := u.moodIntensity.getD r.moodIntensity
    location := u.location.getD r.location
    videoUri := u.videoUri.getD r.videoUri
    hasVideo := u.hasVideo.getD r.hasVideo
    videoUploaded := u.videoUploaded.getD r.videoUploaded
    videoDuration := r.videoDuration
    serverVideoData := u.serverVideoData.getD r.serverVideoData
    createdAt := r.createdAt
    updatedAt := some now
    syncedAt := u.syncedAt.or r.syncedAt
    synced := u.synced.getD r.synced }

/-- storage.js addRecord: fills id (record.id || generated), createdAt
(record.createdAt || now), synced (record.synced || false) and unshifts the
new record to the FRONT of the array. -/
def addRecord (s : Store) (r : NewRecord) (genId : String) (now : Nat) :
    Store × LocalRecord :=
  let newRecord : LocalRecord :=
    { id := jsStrOr r.id genId
      serverId := r.serverId
      content := r.content
      memo := r.memo
      mood := r.mood
      moodIntensity := r.moodIntensity
      location := r.location
      videoUri := r.videoUri
      hasVideo := r.hasVideo
      videoUploaded := r.videoUploaded
      videoDuration := r.videoDuration
      serverVideoData := r.serverVideoData
      createdAt := r.createdAt.getD now
      updatedAt := r.updatedAt
      syncedAt := none
      synced := r.synced }
  ({ s with records := newRecord :: s.records }, newRecord)

/-- findIndex + in-place replacement of storage.js updateRecord:
the first record whose id matches is replaced by its updated copy. -/
def updateInList (id : String) (u : Updates) (now : Nat) :
    List LocalRecord → Option (List LocalRecord × LocalRecord)
  | [] => none
  | r :: rest =>
    if r.id = id then
      let r2 := applyUpdates r u now
      some (r2 :: rest, r2)
    else
      match updateInList id u now rest with
      | some (rest2, r2) => some (r :: rest2, r2)
      | none => none

/-- The message of the error thrown by updateRecord when no record matches. -/
def recordNotFoundMsg : String := "找不到記錄"

/-- storage.js updateRecord; throws (Except.error) when the id is absent. -/
def updateRecord (s : Store) (id : String) (u : Updates) (now : Nat) :
    Except String (Store × LocalRecord) :=
  match updateInList id u now s.records with
  | some (rs, r2) => Except.ok ({ s with records := rs }, r2)
  | none => Except.error recordNotFoundMsg

/-- storage.js getPendingSyncRecords: records with synced = false,
in array order. -/
def getPendingSyncRecords (s : Store) : List LocalRecord :=
  s.records.filter (fun r => !r.synced)

/-- The updates object of storage.js markRecordAsSynced. -/
def markSyncedUpdates (serverId : Option String) (now : Nat) : Updates :=
  { synced := some true
    serverId := some serverId
    syncedAt := some now }

/-- storage.js markRecordAsSynced. -/
def markRecordAsSynced (s : Store) (clientId : String)
    (serverId : Option String) (now : Nat) :
    Except String (Store × LocalRecord) :=
  updateRecord s clientId (markSyncedUpdates serverId now) now

/-- storage.js setLastSyncTime. -/
def setLastSyncTime (s : Store) (t : Nat) : Store :=
  { s with lastSyncTime := some t }

/-- The remote API as the sync service observes it: one pure behaviour per
call shape; an Except.error carries the message of the thrown Error. -/
structure Api where
  uploadVideo : String → String → Except String UploadResult
  createEntry : EntryData → Except String RemoteEntry
  updateEntry : String → EntryData → Except String RemoteEntry
  getEntries : GetQuery → Except String EntriesResponse
  checkHealth : Except String HealthResp

/-- sync.js buildVideoPayload (lines 47-57): tolerant field-name
normalization of an upload response. -/
def buildVideoPayload (uploadRes : Option UploadResult)
    (durationSeconds : Option Nat) : Option Video :=
  match uploadRes with
  | none => none
  | some u =>
    match ((jsStrOpt u.url).or (jsStrOpt u.file_url)).or (jsStrOpt u.file_path) with
    | none => none
    | some url =>
      some { url := url
             file_size := u.file_size.or u.size_bytes
             duration := durationSeconds.or u.duration
             thumbnail_url := u.thumbnail_url }

/-- String literals of sync.js, named so the scanner-friendly style keeps
all literals behind plain definitions. -/
def happyLabel : String := "happy"

def calmLabel : String := "calm"

def neutralLabel : String := "neutral"

def sadLabel : String := "sad"

def angryLabel : String := "angry"

def anxiousLabel : String := "anxious"

def happyEmoji : String := "😄"

def calmEmoji : String := "😊"

def neutralEmoji : String := "😐"

def sadEmoji : String := "😔"

def angryEmoji : String := "😤"

def anxiousEmoji : String := "😰"

/-- The scheme test videoUri.startsWith of syncSingleRecord line 77. -/
def fileUriScheme : String := "file://"

/-- The token searched in the create error message at line 148. -/
def conflictToken : String := "409"

/-- The tokens searched in pull page-fetch errors at line 310. -/
def notFoundToken : String := "404"

def notFoundText : String := "Not Found"

/-- Mood value to level table of syncSingleRecord. -/
def moodLevelMap (m : String) : Option Nat :=
  if m = happyLabel then some 5
  else if m = calmLabel then some 4
  else if m = neutralLabel then some 3
  else if m = sadLabel then some 2
  else if m = angryLabel then some 1
  else if m = anxiousLabel then some 2
  else none

/-- Mood value to emoji table of syncSingleRecord. -/
def moodEmojiMap (m : String) : Option String :=
  if m = happyLabel then some happyEmoji
  else if m = calmLabel then some calmEmoji
  else if m = neutralLabel then some neutralEmoji
  else if m = sadLabel then some sadEmoji
  else if m = angryLabel then some angryEmoji
  else if m = anxiousLabel then some anxiousEmoji
  else none

/-- The location object rebuilt inside entryData (address/accuracy default
to null under JS || when falsy). -/
def normalizeLocation (l : Location) : Location :=
  { latitude := l.latitude
    longitude := l.longitude
    address := jsStrOpt l.address
    accuracy := match l.accuracy with
      | some 0 => none
      | x => x }

/-- The Entry payload built by syncSingleRecord (lines 112-131). -/
def mkEntryData (record : LocalRecord) (userId : String)
    (videoData : Option Video) : EntryData :=
  { user_id := userId
    client_id := record.id
    memo := jsOrStrOpt record.content record.memo
    mood := match jsStrOpt record.mood with
      | some m =>
        some { level := jsNumOr (moodLevelMap m) 3
               emoji := jsStrOr (moodEmojiMap m) neutralEmoji
               label := m }
      | none => none
    video := (videoData.or record.serverVideoData)
    location := record.location.map normalizeLocation
    created_at := record.createdAt }

/-- Result object returned by syncSingleRecord. -/
structure SingleResult where
  success : Bool
  serverId : Option String := none
  alreadyExists : Bool := false
  error : Option String := none
deriving Repr, DecidableEq

/-- Failure result of the outer catch of syncSingleRecord. -/
def failRes (m : String) : SingleResult :=
  { success := false, error := some m }

/-- The video-upload attempt at the top of syncSingleRecord (lines 70-90):
the try/catch swallows an upload failure, leaving videoData null. -/
def attemptVideoUpload (record : LocalRecord) (userId : String)
    (api : Api) : Option Video :=
  if ((jsStrOpt record.videoUri).isSome || record.hasVideo)
      && !record.videoUploaded then
    match jsStrOpt record.videoUri with
    | some uri =>
      if startsWithList uri.data fileUriScheme.data then
        match api.uploadVideo uri userId with
        | Except.ok uploadResult =>
          buildVideoPayload (some uploadResult) record.videoDuration
        | Except.error _ => none
      else none
    | none => none
  else none

/-- Tail of the success path of syncSingleRecord (lines 175-191): cache a
server-returned media reference, then report success.  A throw of
updateRecord lands in the outer catch, i.e. a failure result with the
store untouched. -/
def finishSuccess (s : Store) (record : LocalRecord)
    (videoData : Option Video) (result : RemoteEntry) (now : Nat) :
    Store × SingleResult :=
  let serverVideo := (result.video.or videoData).or record.serverVideoData
  match serverVideo with
  | some v =>
    match updateRecord s record.id
        { serverVideoData := some (some v)
          videoUploaded := some true
          videoUri := some none
          hasVideo := some true } now with
    | Except.ok (s2, _) =>
      (s2, { success := true, serverId := some result.mongoId })
    | Except.error m => (s, failRes m)
  | none => (s, { success := true, serverId := some result.mongoId })

/-- sync.js syncSingleRecord: upload media best-effort, build the payload,
PUT when a serverId exists, otherwise POST with 409-conflict recovery via a
query for the same client_id. -/
def syncSingleRecord (s : Store) (record : LocalRecord) (userId : String)
    (api : Api) (now : Nat) : Store × SingleResult :=
  let videoData := attemptVideoUpload record userId api
  let entryData := mkEntryData record userId videoData
  match record.serverId with
  | some sid =>
    match api.updateEntry sid entryData with
    | Except.error m => (s, failRes m)
    | Except.ok result => finishSuccess s record videoData result now
  | none =>
    match api.createEntry entryData with
    | Except.ok result => finishSuccess s record videoData result now
    | Except.error createMsg =>
      if strIncludes createMsg conflictToken then
        match api.getEntries { user_id := userId, limit := some 100 } with
        | Except.ok existingEntries =>
          match (existingEntries.entries.getD []).find?
              (fun e => e.client_id == some record.id) with
          | some existingEntry =>
            (s, { success := true
                  serverId := some existingEntry.mongoId
                  alreadyExists := true })
          | none => (s, failRes createMsg)
        | Except.error _ => (s, failRes createMsg)
      else (s, failRes createMsg)

/-- Default error string of the push loop. -/
def unknownErrorMsg : String := "未知錯誤"

/-- JS whitespace test backing the error.trim() truthiness check. -/
def isWsp (c : Char) : Bool :=
  c == ' ' || c == '\t' || c == '\n' || c == '\r'

/-- error.trim() is falsy exactly when the string is all whitespace. -/
def strBlank (s : String) : Bool :=
  s.data.all isWsp

/-- Error-to-string normalization of the push loop (lines 245-255); the
model's errors are already strings so only the blank-string default fires. -/
def errStrOf (e : Option String) : String :=
  match e with
  | some m => if strBlank m then unknownErrorMsg else m
  | none => unknownErrorMsg

/-- Statistics object of syncPendingRecords. -/
structure PushResult where
  success : Bool
  synced : Nat
  failed : Nat
  total : Nat
  errors : List (String × String) := []
deriving Repr, DecidableEq

/-- The for-loop of syncPendingRecords (lines 230-261): one
syncSingleRecord attempt per pending record; a success is followed by
markRecordAsSynced (whose throw aborts the whole push), a failure is
recorded as a (recordId, error) pair and the loop continues. -/
def pushLoop (userId : String) (api : Api) (now : Nat) :
    Store → List LocalRecord →
    Store × Except String (Nat × Nat × List (String × String))
  | s, [] => (s, Except.ok (0, 0, []))
  | s, record :: rest =>
    let step := syncSingleRecord s record userId api now
    if step.2.success then
      match markRecordAsSynced step.1 record.id step.2.serverId now with
      | Except.error e => (step.1, Except.error e)
      | Except.ok (s2, _) =>
        match pushLoop userId api now s2 rest with
        | (s3, Except.error e) => (s3, Except.error e)
        | (s3, Except.ok (sy, fa, errs)) => (s3, Except.ok (sy + 1, fa, errs))
    else
      let pair := (record.id, errStrOf step.2.error)
      match pushLoop userId api now step.1 rest with
      | (s3, Except.error e) => (s3, Except.error e)
      | (s3, Except.ok (sy, fa, errs)) =>
        (s3, Except.ok (sy, fa + 1, pair :: errs))

/-- sync.js syncPendingRecords: snapshot the pending list, run the loop,
then unconditionally stamp the sync cursor (line 264).  An Except.error is
a storage throw escaping to the caller (fullSync catches it). -/
def syncPendingRecords (s : Store) (userId : String) (api : Api)
    (now : Nat) : Store × Except String PushResult :=
  let pending := getPendingSyncRecords s
  if pending.length = 0 then
    (s, Except.ok { success := true, synced := 0, failed := 0, total := 0 })
  else
    match pushLoop userId api now s pending with
    | (s2, Except.error e) => (s2, Except.error e)
    | (s2, Except.ok (sy, fa, errs)) =>
      (setLastSyncTime s2 now,
       Except.ok { success := fa == 0
                   synced := sy
                   failed := fa
                   total := pending.length
                   errors := errs })

/-- normalizeEntries of pullFromServer: the entries array of the payload,
or empty. -/
def normalizeEntries (resp : EntriesResponse) : List RemoteEntry :=
  resp.entries.getD []

/-- The query of one page fetch of fetchAllEntries. -/
def pageQuery (userId : String) (page : Nat) : GetQuery :=
  { user_id := userId, page := some page, page_size := some 100 }

/-- The response.total fallback of the totalPages update. -/
def totalFromCount (resp : EntriesResponse) : Option Nat :=
  match resp.total with
  | some t => if t ≠ 0 then some (max 1 ((t + 99) / 100)) else none
  | none => none

/-- The totalPages update of fetchAllEntries (lines 324-328): a positive
total_pages wins, else a truthy total yields max(1, ceil(total / 100)),
else none (the loop then applies the short-page break). -/
def reportedTotals (resp : EntriesResponse) : Option Nat :=
  match resp.total_pages with
  | some tp => if tp > 0 then some tp else totalFromCount resp
  | none => totalFromCount resp

/-- The while-loop of fetchAllEntries (lines 293-342), with explicit fuel
(none = fuel exhausted, never a behaviour of the code).  A 404 is treated
as end-of-data (page 1: empty result; later pages: break); reported
total_pages or total can extend totalPages; a short or empty page without
pagination metadata breaks. -/
def fetchPages (api : Api) (userId : String) :
    Nat → Nat → Nat → List RemoteEntry →
    Option (Except String (List RemoteEntry))
  | 0, _, _, _ => none
  | fuel + 1, page, totalPages, acc =>
    if page > totalPages then some (Except.ok acc)
    else
      match api.getEntries (pageQuery userId page) with
      | Except.error msg =>
        if strIncludes msg notFoundToken || strIncludes msg notFoundText then
          some (Except.ok acc)
        else some (Except.error msg)
      | Except.ok resp =>
        let entries := normalizeEntries resp
        let acc2 := acc ++ entries
        match reportedTotals resp with
        | some tot2 =>
          if entries.length = 0 then some (Except.ok acc2)
          else fetchPages api userId fuel (page + 1) tot2 acc2
        | none =>
          if entries.length < 100 then some (Except.ok acc2)
          else if entries.length = 0 then some (Except.ok acc2)
          else fetchPages api userId fuel (page + 1) totalPages acc2

/-- The id used for a pulled entry without client_id: server_ plus _id. -/
def serverIdTag : String := "server_"

/-- Message strings of fullSync and saveRecord. -/
def offlineMsg : String := "無網路連線"

def healthFailMsg : String := "健康檢查失敗: "

def serverDownMsg : String := "無法連線到伺服器"

def uploadFailMsg : String := "上傳失敗: "

def offlineReason : String := "offline"

/-- localByClientId lookup (lines 349-352): the forEach-built map keeps,
for each id, the LAST record assigned, hence find? over the reversed
snapshot. -/
def indexLookup (snapshot : List LocalRecord) (cid : String) :
    Option LocalRecord :=
  snapshot.reverse.find? (fun r => r.id = cid)

/-- The updates object of the pull-phase overwrite (lines 368-380).  Note
it supplies updatedAt := entry.updated_at, which updateRecord's spread
then replaces with the local clock. -/
def pullUpdates (entry : RemoteEntry) (localRec : LocalRecord) : Updates :=
  { serverId := some (some entry.mongoId)
    content := some entry.memo
    mood := some (entry.mood.bind RemoteMood.type)
    moodIntensity := some (entry.mood.bind RemoteMood.intensity)
    location := some entry.location
    serverVideoData := some entry.video
    videoUploaded := some entry.video.isSome
    hasVideo := some entry.video.isSome
    videoUri := some (if entry.video.isSome then none else localRec.videoUri)
    synced := some true
    updatedAt := some entry.updated_at }

/-- The new LocalRecord inserted when a pulled entry has no local match
(lines 385-399). -/
def recordOfEntry (entry : RemoteEntry) : NewRecord :=
  { id := some (jsStrOr entry.client_id (serverIdTag ++ entry.mongoId))
    serverId := some entry.mongoId
    content := entry.memo
    mood := entry.mood.bind RemoteMood.type
    moodIntensity := entry.mood.bind RemoteMood.intensity
    location := entry.location
    serverVideoData := entry.video
    hasVideo := entry.video.isSome
    videoUploaded := entry.video.isSome
    videoUri := none
    createdAt := some entry.created_at
    updatedAt := some entry.updated_at
    synced := true }

/-- Body of the pull-phase for-loop (lines 357-403) for one remote entry:
last-write-wins overwrite of a known client_id, insertion otherwise.
The snapshot is the pre-loop record list (the index is not refreshed).
An Except.error is the throw of updateRecord. -/
def mergeEntry (snapshot : List LocalRecord) (now : Nat)
    (st : Store) (added updated : Nat) (entry : RemoteEntry) :
    Except String (Store × Nat × Nat) :=
  let addPath : Except String (Store × Nat × Nat) :=
    let st2 := (addRecord st (recordOfEntry entry) "" now).1
    Except.ok (st2, added + 1, updated)
  match jsStrOpt entry.client_id with
  | some cid =>
    match indexLookup snapshot cid with
    | some localRec =>
      let serverUpdated := entry.updated_at
      let localUpdated := localRec.updatedAt.getD 0
      if serverUpdated > localUpdated then
        match updateRecord st cid (pullUpdates entry localRec) now with
        | Except.ok (st2, _) => Except.ok (st2, added, updated + 1)
        | Except.error e => Except.error e
      else Except.ok (st, added, updated)
    | none => addPath
  | none => addPath

/-- The pull-phase for-loop over all fetched entries; on a throw the store
keeps the changes already persisted before the throwing entry. -/
def mergeAll (snapshot : List LocalRecord) (now : Nat) :
    Store → Nat → Nat → List RemoteEntry →
    Store × Except String (Nat × Nat)
  | st, added, updated, [] => (st, Except.ok (added, updated))
  | st, added, updated, entry :: rest =>
    match mergeEntry snapshot now st added updated entry with
    | Except.error m => (st, Except.error m)
    | Except.ok (st2, a2, u2) => mergeAll snapshot now st2 a2 u2 rest

/-- Result object of pullFromServer. -/
structure PullResult where
  success : Bool
  added : Nat := 0
  updated : Nat := 0
  total : Nat := 0
  error : Option String := none
deriving Repr, DecidableEq

/-- sync.js pullFromServer: fetch all pages, merge into the local store,
then stamp the sync cursor (line 405) — reached only when nothing threw.
The outer catch converts any throw into a success := false result. -/
def pullFromServer (s : Store) (userId : String) (api : Api) (now : Nat)
    (fuel : Nat) : Option (Store × PullResult) :=
  match fetchPages api userId fuel 1 1 [] with
  | none => none
  | some (Except.error m) =>
    some (s, { success := false, error := some m })
  | some (Except.ok serverEntries) =>
    let snapshot := getAllRecords s
    match mergeAll snapshot now s 0 0 serverEntries with
    | (s2, Except.error m) =>
      some (s2, { success := false, error := some m })
    | (s2, Except.ok (a, u)) =>
      some (setLastSyncTime s2 now,
            { success := true, added := a, updated := u
              total := serverEntries.length })

/-- Aggregate result of fullSync. -/
structure FullResult where
  success : Bool
  error : Option String := none
  push : Option PushResult := none
  pull : Option PullResult := none
deriving Repr, DecidableEq

/-- sync.js fullSync: reachability gate, health gate, then push followed by
pull; overall success is the conjunction of the two phase successes.
online is the value the NetInfo monitor reports. -/
def fullSync (s : Store) (userId : String) (online : Bool) (api : Api)
    (now : Nat) (fuel : Nat) : Option (Store × FullResult) :=
  if !online then
    some (s, { success := false, error := some offlineMsg })
  else
    match api.checkHealth with
    | Except.error m =>
      some (s, { success := false, error := some (healthFailMsg ++ m) })
    | Except.ok health =>
      if !health.connected then
        some (s, { success := false, error := some serverDownMsg })
      else
        match syncPendingRecords s userId api now with
        | (s1, Except.error m) =>
          some (s1, { success := false, error := some (uploadFailMsg ++ m) })
        | (s1, Except.ok pushResult) =>
          match pullFromServer s1 userId api now fuel with
          | none => none
          | some (s2, pullResult) =>
            some (s2, { success := pushResult.success && pullResult.success
                        push := some pushResult
                        pull := some pullResult })

/-- The autoSync sub-object of saveRecord's result. -/
structure AutoSync where
  attempted : Bool
  success : Bool
  serverId : Option String := none
  error : Option String := none
  reason : Option String := none
deriving Repr, DecidableEq

/-- Result of saveRecord. -/
structure SaveResult where
  success : Bool
  synced : Bool
  autoSync : AutoSync
deriving Repr, DecidableEq

/-- sync.js saveRecord: persist locally first (generated clientId, synced
false), then — only when online with a truthy userId — one best-effort
syncSingleRecord whose failure is silent. -/
def saveRecord (s : Store) (recordData : NewRecord) (userId : String)
    (online : Bool) (api : Api) (genId : String) (now : Nat) :
    Store × SaveResult :=
  let clientId := jsStrOr recordData.id genId
  let localRecord : NewRecord :=
    { recordData with
      id := some clientId
      createdAt := some (recordData.createdAt.getD now)
      synced := false }
  let added := addRecord s localRecord genId now
  let s1 := added.1
  let storedRecord := added.2
  if online && userId ≠ "" then
    let step := syncSingleRecord s1 storedRecord userId api now
    if step.2.success then
      match markRecordAsSynced step.1 storedRecord.id step.2.serverId now with
      | Except.ok (s3, _) =>
        (s3, { success := true, synced := true
               autoSync := { attempted := true, success := true
                             serverId := step.2.serverId } })
      | Except.error m =>
        (step.1, { success := true, synced := false
                   autoSync := { attempted := true, success := false
                                 error := some m } })
    else
      (step.1, { success := true, synced := false
                 autoSync := { attempted := true, success := false
                               error := step.2.error } })
  else
    (s1, { success := true, synced := false
           autoSync := { attempted := false, success := false
                         reason := if !online then some offlineReason
                                   else none } })

/-- Modelled from the spec: the backend route POST /entries is not under
src/ (only the backend README is), so its conflict behaviour follows the
spec: a create whose client_id already exists remotely is rejected with an
HTTP 409 conflict; otherwise the entry is stored with a server-assigned
_id and a server-assigned updated_at, carrying the same semantic fields. -/
def toRemoteEntry (e : EntryData) (newId : String) (upAt : Nat) :
    RemoteEntry :=
  { mongoId := newId
    client_id := some e.client_id
    memo := e.memo
    mood := e.mood.map (fun m => { type := some m.label, intensity := some m.level })
    video := e.video
    location := e.location
    created_at := e.created_at
    updated_at := upAt }

/-- The message of the spec-modelled 409 rejection, in the shape api.js
surfaces for a body without detail: HTTP status and statusText. -/
def conflictMsg : String := "HTTP 409: Conflict"

/-- Modelled from the spec: server-side create with idempotency-conflict
rejection; returns the server state after the call and the client-visible
result. -/
def specCreateEntry (server : List RemoteEntry) (e : EntryData)
    (newId : String) (upAt : Nat) :
    List RemoteEntry × Except String RemoteEntry :=
  if server.any (fun x => x.client_id == some e.client_id) then
    (server, Except.error conflictMsg)
  else
    let re := toRemoteEntry e newId upAt
    (server ++ [re], Except.ok re)

/-- Placeholder message for api calls a scenario never exercises. -/
def notUsedMsg : String := "not used"

/-- Message of a failed media upload. -/
def netFailMsg : String := "網路連線失敗，無法上傳影片"

/-- The Api a given frozen server state presents to one syncSingleRecord
call: create follows specCreateEntry, the conflict-recovery query returns
the server's entries, media upload fails (the scenarios carry no media). -/
def apiOfServer (server : List RemoteEntry) (newId : String) (upAt : Nat) :
    Api :=
  { uploadVideo := fun _ _ => Except.error netFailMsg
    createEntry := fun e => (specCreateEntry server e newId upAt).2
    updateEntry := fun _ _ => Except.error notUsedMsg
    getEntries := fun _ => Except.ok { entries := some server }
    checkHealth := Except.ok { connected := true } }

/-- One push of a record against a frozen server state: the client run and
the server state after the client's only mutating call (createEntry, made
exactly once when the record has no serverId). -/
def pushOnce (s : Store) (record : LocalRecord) (userId : String)
    (server : List RemoteEntry) (newId : String) (now : Nat) :
    (Store × SingleResult) × List RemoteEntry :=
  let api := apiOfServer server newId now
  let out := syncSingleRecord s record userId api now
  let entryData :=
    mkEntryData record userId (attemptVideoUpload record userId api)
  (out, (specCreateEntry server entryData newId now).1)

/-- Number of remote entries carrying a given client_id. -/
def countClientId (server : List RemoteEntry) (cid : String) : Nat :=
  (server.filter (fun e => e.client_id == some cid)).length

/-! Concrete fixtures used by witnesses and counterexamples. -/

/-- A server-rejection message without conflict or not-found markers. -/
def serverErrMsg : String := "HTTP 500: Internal Server Error"

/-- A 404 message in the api.js fallback shape. -/
def msg404 : String := "HTTP 404: Not Found"

/-- An Api whose every entry call is rejected by the server. -/
def apiFailAll : Api :=
  { uploadVideo := fun _ _ => Except.error netFailMsg
    createEntry := fun _ => Except.error serverErrMsg
    updateEntry := fun _ _ => Except.error serverErrMsg
    getEntries := fun _ => Except.error serverErrMsg
    checkHealth := Except.ok { connected := true } }

/-- An Api that reports 404 for every entries page. -/
def apiAll404 : Api :=
  { apiFailAll with getEntries := fun _ => Except.error msg404 }

/-- An Api with an empty, healthy server. -/
def apiEmptyOk : Api :=
  { apiFailAll with getEntries := fun _ => Except.ok { entries := some [] } }

/-- Message of a throwing health check. -/
def healthBoom : String := "boom"

/-- An Api whose health check throws. -/
def apiHealthThrow : Api :=
  { apiFailAll with checkHealth := Except.error healthBoom }

/-- An Api whose health check reports not connected. -/
def apiNotConnected : Api :=
  { apiFailAll with checkHealth := Except.ok { connected := false } }

def userA : String := "u1"

def genA : String := "a1"

def genB : String := "b1"

def emptyStore : Store := {}

def emptyNew : NewRecord := {}

/-- Store reachable by addRecord at time 1 then addRecord at time 2:
the younger record sits at the FRONT. -/
def storeTwoPending : Store :=
  (addRecord (addRecord emptyStore emptyNew genA 1).1 emptyNew genB 2).1

def recPending : LocalRecord := { id := genA, createdAt := 1 }

def storeOnePending : Store := { records := [recPending] }

/-- Remote entries for the pull fixtures: one strictly newer than the
local record, one not newer. -/
def entNewer : RemoteEntry :=
  { mongoId := genB, client_id := some genA, memo := some userA
    updated_at := 10 }

def entStale : RemoteEntry :=
  { mongoId := genB, client_id := some genA, memo := some userA
    updated_at := 0 }

/-- A record with a pending local video, and an Api whose upload always
fails but whose create succeeds without a media reference. -/
def vidUri : String := "file://v.mp4"

def recWithVideo : LocalRecord := { id := genA, videoUri := some vidUri }

def entC7 : RemoteEntry := { mongoId := genB }

def apiUploadFails : Api :=
  { apiFailAll with createEntry := fun _ => Except.ok entC7 }

/-- A record pushed twice in the idempotency scenario. -/
def recC2 : LocalRecord := { id := genA, content := some userA, createdAt := 3 }

/-- An updates object that tries to supply its own updatedAt. -/
def u999 : Updates := { updatedAt := some 999 }

def recPendingUpd : LocalRecord := applyUpdates recPending u999 5

def storeOnePendingUpd : Store := { records := [recPendingUpd] }

/-- The overwritten record and store of the pull fixture. -/
def recMerged : LocalRecord :=
  applyUpdates recPending (pullUpdates entNewer recPending) 99

def storeMerged : Store := { records := [recMerged] }

/-- The push statistics produced by apiFailAll on storeOnePending. -/
def prFail : PushResult :=
  { success := false, synced := 0, failed := 1, total := 1
    errors := [(genA, serverErrMsg)] }

def storeAfterFailPush : Store :=
  { records := [recPending], lastSyncTime := some 5 }

/-- The pull result on an empty healthy server. -/
def pullOkEmpty : PullResult :=
  { success := true, added := 0, updated := 0, total := 0 }

/-- The push result when nothing is pending. -/
def prEmpty : PushResult :=
  { success := true, synced := 0, failed := 0, total := 0 }

/-! Helper lemmas about the storage layer. -/

theorem applyUpdates_updatedAt (r : LocalRecord) (u : Updates) (now : Nat) :
    (applyUpdates r u now).updatedAt = some now := rfl

theorem applyUpdates_id (r : LocalRecord) (u : Updates) (now : Nat) :
    (applyUpdates r u now).id = r.id := rfl

theorem updateInList_ok (id : String) (u : Updates) (now : Nat) :
    ∀ (l l2 : List LocalRecord) (rec : LocalRecord),
    updateInList id u now l = some (l2, rec) →
    ∃ r, r ∈ l ∧ r.id = id ∧ rec = applyUpdates r u now := by
  intro l
  induction l with
  | nil => intro l2 rec h; simp [updateInList] at h
  | cons a tl ih =>
    intro l2 rec h
    unfold updateInList at h
    split at h
    · rename_i hid
      simp only [Option.some.injEq, Prod.mk.injEq] at h
      exact ⟨a, List.mem_cons_self a tl, hid, h.2.symm⟩
    · rename_i hid
      split at h
      · rename_i rest2 r2 heq
        simp only [Option.some.injEq, Prod.mk.injEq] at h
        obtain ⟨r, hr, hid2, hrec⟩ := ih _ _ heq
        exact ⟨r, List.mem_cons_of_mem a hr, hid2, by rw [← h.2]; exact hrec⟩
      · exact absurd h (by simp)

theorem updateRecord_ok (s : Store) (id : String) (u : Updates) (now : Nat)
    (s2 : Store) (rec : LocalRecord)
    (h : updateRecord s id u now = Except.ok (s2, rec)) :
    s2.lastSyncTime = s.lastSyncTime ∧
    ∃ r, r ∈ s.records ∧ r.id = id ∧ rec = applyUpdates r u now := by
  unfold updateRecord at h
  split at h
  · rename_i rs r2 heq
    injection h with h2
    injection h2 with ha hb
    subst ha hb
    exact ⟨rfl, updateInList_ok id u now s.records rs r2 heq⟩
  · exact absurd h (by simp)

theorem addRecord_lastSync (s : Store) (r : NewRecord) (g : String) (n : Nat) :
    ((addRecord s r g n).1).lastSyncTime = s.lastSyncTime := rfl

theorem addRecord_records (s : Store) (r : NewRecord) (g : String) (n : Nat) :
    ((addRecord s r g n).1).records = (addRecord s r g n).2 :: s.records := rfl

/-! Helper lemmas about syncSingleRecord. -/

theorem finishSuccess_fail (s : Store) (record : LocalRecord)
    (videoData : Option Video) (result : RemoteEntry) (now : Nat)
    (h : ((finishSuccess s record videoData result now).2).success = false) :
    (finishSuccess s record videoData result now).1 = s := by
  revert h
  simp only [finishSuccess]
  split
  · split
    · intro h; simp at h
    · intro _; rfl
  · intro h; simp at h

theorem finishSuccess_lastSync (s : Store) (record : LocalRecord)
    (videoData : Option Video) (result : RemoteEntry) (now : Nat) :
    ((finishSuccess s record videoData result now).1).lastSyncTime =
      s.lastSyncTime := by
  simp only [finishSuccess]
  split
  · split
    · rename_i s2 w heq
      exact (updateRecord_ok _ _ _ _ _ _ heq).1
    · rfl
  · rfl

theorem syncSingleRecord_fail (s : Store) (record : LocalRecord)
    (userId : String) (api : Api) (now : Nat)
    (h : ((syncSingleRecord s record userId api now).2).success = false) :
    (syncSingleRecord s record userId api now).1 = s := by
  revert h
  simp only [syncSingleRecord]
  split
  · split
    · intro _; rfl
    · exact fun h => finishSuccess_fail _ _ _ _ _ h
  · split
    · exact fun h => finishSuccess_fail _ _ _ _ _ h
    · split
      · split
        · split
          · intro h; simp [failRes] at h
          · intro _; rfl
        · intro _; rfl
      · intro _; rfl

theorem syncSingleRecord_lastSync (s : Store) (record : LocalRecord)
    (userId : String) (api : Api) (now : Nat) :
    ((syncSingleRecord s record userId api now).1).lastSyncTime =
      s.lastSyncTime := by
  simp only [syncSingleRecord]
  split
  · split
    · rfl
    · exact finishSuccess_lastSync _ _ _ _ _
  · split
    · exact finishSuccess_lastSync _ _ _ _ _
    · split
      · split
        · split
          · rfl
          · rfl
        · rfl
      · rfl

/-! Helper lemmas about the push loop. -/

theorem markRecordAsSynced_lastSync (s : Store) (cid : String)
    (sid : Option String) (now : Nat) (s2 : Store) (w : LocalRecord)
    (h : markRecordAsSynced s cid sid now = Except.ok (s2, w)) :
    s2.lastSyncTime = s.lastSyncTime := by
  unfold markRecordAsSynced at h
  exact (updateRecord_ok _ _ _ _ _ _ h).1

theorem pushLoop_lastSync (userId : String) (api : Api) (now : Nat) :
    ∀ (l : List LocalRecord) (s : Store),
    ((pushLoop userId api now s l).1).lastSyncTime = s.lastSyncTime := by
  intro l
  induction l with
  | nil => intro s; rfl
  | cons r tl ih =>
    intro s
    have hs1 := syncSingleRecord_lastSync s r userId api now
    simp only [pushLoop]
    split
    · split
      · exact hs1
      · rename_i s2 w hmark
        have hs2 : s2.lastSyncTime = s.lastSyncTime := by
          rw [markRecordAsSynced_lastSync _ _ _ _ _ _ hmark, hs1]
        have h3 := ih s2
        split
        · rename_i s3 e hrec
          rw [hrec] at h3
          exact h3.trans hs2
        · rename_i s3 sy fa errs hrec
          rw [hrec] at h3
          exact h3.trans hs2
    · have h3 := ih (syncSingleRecord s r userId api now).1
      split
      · rename_i s3 e hrec
        rw [hrec] at h3
        exact h3.trans hs1
      · rename_i s3 sy fa errs hrec
        rw [hrec] at h3
        exact h3.trans hs1

theorem pushLoop_counts (userId : String) (api : Api) (now : Nat) :
    ∀ (l : List LocalRecord) (s s3 : Store) (sy fa : Nat)
      (errs : List (String × String)),
    pushLoop userId api now s l = (s3, Except.ok (sy, fa, errs)) →
    sy + fa = l.length ∧ errs.length = fa := by
  intro l
  induction l with
  | nil =>
    intro s s3 sy fa errs h
    simp only [pushLoop, Prod.mk.injEq, Except.ok.injEq] at h
    obtain ⟨-, h1, h2, h3⟩ := h
    subst h1; subst h2; subst h3
    simp
  | cons r tl ih =>
    intro s s3 sy fa errs h
    simp only [pushLoop] at h
    split at h
    · split at h
      · exact absurd h (by simp)
      · rename_i s2 w hmark
        split at h
        · exact absurd h (by simp)
        · rename_i s4 sy2 fa2 errs2 hrec
          simp only [Prod.mk.injEq, Except.ok.injEq] at h
          obtain ⟨h0, h1, h2, h3⟩ := h
          obtain ⟨hcount, herr⟩ := ih s2 s4 sy2 fa2 errs2 hrec
          constructor
          · simp only [List.length_cons]; omega
          · rw [← h3, ← h2]; exact herr
    · split at h
      · exact absurd h (by simp)
      · rename_i s4 sy2 fa2 errs2 hrec
        simp only [Prod.mk.injEq, Except.ok.injEq] at h
        obtain ⟨h0, h1, h2, h3⟩ := h
        obtain ⟨hcount, herr⟩ :=
          ih (syncSingleRecord s r userId api now).1 s4 sy2 fa2 errs2 hrec
        constructor
        · simp only [List.length_cons]; omega
        · rw [← h3]
          simp only [List.length_cons]
          omega

theorem pushLoop_cons_fail (userId : String) (api : Api) (now : Nat)
    (s : Store) (r : LocalRecord) (tl : List LocalRecord)
    (hfail : ((syncSingleRecord s r userId api now).2).success = false)
    (s3 : Store) (sy fa : Nat) (errs : List (String × String))
    (hrest : pushLoop userId api now s tl = (s3, Except.ok (sy, fa, errs))) :
    pushLoop userId api now s (r :: tl) =
      (s3, Except.ok (sy, fa + 1,
        (r.id, errStrOf ((syncSingleRecord s r userId api now).2).error)
          :: errs)) := by
  simp only [pushLoop, hfail, Bool.false_eq_true, if_false]
  rw [syncSingleRecord_fail s r userId api now hfail, hrest]

theorem pushLoop_allfail (userId : String) (api : Api) (now : Nat)
    (hf : ∀ (s0 : Store) (r : LocalRecord),
      ((syncSingleRecord s0 r userId api now).2).success = false) :
    ∀ (l : List LocalRecord) (s : Store),
    pushLoop userId api now s l =
      (s, Except.ok (0, l.length,
        l.map (fun r =>
          (r.id, errStrOf ((syncSingleRecord s r userId api now).2).error)))) := by
  intro l
  induction l with
  | nil => intro s; rfl
  | cons r tl ih =>
    intro s
    have h := pushLoop_cons_fail userId api now s r tl (hf s r) s 0 tl.length
      (tl.map (fun r2 =>
        (r2.id, errStrOf ((syncSingleRecord s r2 userId api now).2).error)))
      (ih s)
    rw [h]
    simp

theorem apiFailAll_fails (s0 : Store) (r : LocalRecord) (uid : String)
    (now : Nat) :
    ((syncSingleRecord s0 r uid apiFailAll now).2).success = false := by
  simp only [syncSingleRecord]
  split
  · split
    · simp [failRes]
    · rename_i result heq
      simp [apiFailAll] at heq
  · split
    · rename_i result heq
      simp [apiFailAll] at heq
    · rename_i createMsg heq
      have hmsg : createMsg = serverErrMsg := by
        simp [apiFailAll] at heq
        exact heq.symm
      subst hmsg
      have hni : strIncludes serverErrMsg conflictToken = false := by decide
      simp [hni, failRes]

/-! Helper lemmas about the pull merge. -/

theorem mergeEntry_ok_lastSync (snapshot : List LocalRecord) (now : Nat)
    (st : Store) (added updated : Nat) (entry : RemoteEntry)
    (st2 : Store) (a2 u2 : Nat)
    (h : mergeEntry snapshot now st added updated entry =
      Except.ok (st2, a2, u2)) :
    st2.lastSyncTime = st.lastSyncTime := by
  simp only [mergeEntry] at h
  split at h
  · split at h
    · split at h
      · split at h
        · rename_i st3 w hupd
          simp only [Except.ok.injEq, Prod.mk.injEq] at h
          rw [← h.1]
          exact (updateRecord_ok _ _ _ _ _ _ hupd).1
        · exact absurd h (by simp)
      · simp only [Except.ok.injEq, Prod.mk.injEq] at h
        rw [← h.1]
    · simp only [Except.ok.injEq, Prod.mk.injEq] at h
      rw [← h.1]
      exact addRecord_lastSync _ _ _ _
  · simp only [Except.ok.injEq, Prod.mk.injEq] at h
    rw [← h.1]
    exact addRecord_lastSync _ _ _ _

theorem mergeAll_lastSync (snapshot : List LocalRecord) (now : Nat) :
    ∀ (l : List RemoteEntry) (st : Store) (added updated : Nat),
    ((mergeAll snapshot now st added updated l).1).lastSyncTime =
      st.lastSyncTime := by
  intro l
  induction l with
  | nil => intro st a u; rfl
  | cons e tl ih =>
    intro st a u
    simp only [mergeAll]
    split
    · rfl
    · rename_i st2 a2 u2 hme
      exact (ih st2 a2 u2).trans (mergeEntry_ok_lastSync _ _ _ _ _ _ _ _ _ hme)

/-! Claim theorems. -/

/-- C10: every successful updateRecord stamps the stored record's
updatedAt with the local current time of the call, overwriting any
updatedAt supplied in the updates object; in particular the pull-phase
merge supplies the server's updated_at yet the stored value is the local
clock. -/
theorem updateRecord_sets_updatedAt (s : Store) (id : String) (u : Updates)
    (now : Nat) :
    (∀ (s2 : Store) (rec : LocalRecord),
      updateRecord s id u now = Except.ok (s2, rec) →
      rec.updatedAt = some now)
    ∧ (∀ r : LocalRecord, (applyUpdates r u now).updatedAt = some now)
    ∧ (∀ (entry : RemoteEntry) (localRec : LocalRecord),
        (pullUpdates entry localRec).updatedAt = some entry.updated_at) := by
  refine ⟨?_, fun r => rfl, fun e l => rfl⟩
  intro s2 rec h
  obtain ⟨-, r, -, -, hrec⟩ := updateRecord_ok s id u now s2 rec h
  rw [hrec]
  rfl

/-- Witness for C10: a concrete update that supplies updatedAt := 999 at
local time 5 stores updatedAt = 5. -/
theorem updateRecord_sets_updatedAt_witness :
    recPendingUpd.updatedAt = some 5 :=
  (updateRecord_sets_updatedAt storeOnePending genA u999 5).1
    storeOnePendingUpd recPendingUpd (by decide)

/-- C1: in the pull phase, a remote entry matching a local record by
client_id overwrites the local record only when the remote updated_at is
strictly later than the local updatedAt; on an equal or earlier remote
timestamp the store is left unchanged. -/
theorem pull_last_write_wins (snapshot : List LocalRecord) (now : Nat)
    (st : Store) (added updated : Nat) (entry : RemoteEntry)
    (cid : String) (localRec : LocalRecord)
    (hcid : jsStrOpt entry.client_id = some cid)
    (hloc : indexLookup snapshot cid = some localRec) :
    (entry.updated_at ≤ localRec.updatedAt.getD 0 →
      mergeEntry snapshot now st added updated entry =
        Except.ok (st, added, updated))
    ∧ (∀ (s2 : Store) (rec : LocalRecord),
        localRec.updatedAt.getD 0 < entry.updated_at →
        updateRecord st cid (pullUpdates entry localRec) now =
          Except.ok (s2, rec) →
        mergeEntry snapshot now st added updated entry =
          Except.ok (s2, added, updated + 1)
        ∧ rec.content = entry.memo
        ∧ rec.serverId = some entry.mongoId
        ∧ rec.synced = true
        ∧ rec.updatedAt = some now) := by
  constructor
  · intro hle
    simp only [mergeEntry, hcid, hloc]
    rw [if_neg (by omega)]
  · intro s2 rec hgt hupd
    obtain ⟨-, r, -, -, hrec⟩ :=
      updateRecord_ok st cid (pullUpdates entry localRec) now s2 rec hupd
    refine ⟨?_, by rw [hrec]; rfl, by rw [hrec]; rfl, by rw [hrec]; rfl,
      by rw [hrec]; rfl⟩
    simp only [mergeEntry, hcid, hloc]
    rw [if_pos hgt, hupd]

/-- Witness for C1: on a concrete store, the stale entry (remote not
newer) leaves the store unchanged and the newer entry overwrites,
bumping updated. -/
theorem pull_last_write_wins_witness :
    mergeEntry [recPending] 99 storeOnePending 0 0 entStale =
      Except.ok (storeOnePending, 0, 0)
    ∧ mergeEntry [recPending] 99 storeOnePending 0 0 entNewer =
        Except.ok (storeMerged, 0, 1)
    ∧ recMerged.synced = true :=
  ⟨(pull_last_write_wins [recPending] 99 storeOnePending 0 0 entStale genA
      recPending (by decide) (by decide)).1 (by decide),
   ((pull_last_write_wins [recPending] 99 storeOnePending 0 0 entNewer genA
      recPending (by decide) (by decide)).2 storeMerged recMerged
      (by decide) (by decide)).1,
   ((pull_last_write_wins [recPending] 99 storeOnePending 0 0 entNewer genA
      recPending (by decide) (by decide)).2 storeMerged recMerged
      (by decide) (by decide)).2.2.2.1⟩

/-- C4 counterexample: the push phase also advances lastSyncTime.  On a
store with one pending record and a server that rejects every request,
syncPendingRecords (no pull involved, and the one push failed) moves the
cursor from none to the push time — refuting the claim that only a
completed pull advances it. -/
theorem cursor_advance_counterexample :
    storeOnePending.lastSyncTime = none
    ∧ ((syncPendingRecords storeOnePending userA apiFailAll 5).1).lastSyncTime
        = some 5
    ∧ (syncPendingRecords storeOnePending userA apiFailAll 5).2 =
        Except.ok prFail := by
  refine ⟨rfl, by decide, by decide⟩

/-- C4 (amended): lastSyncTime advances after a pull that completes
without throwing, and also at the end of every push phase that had at
least one pending record and did not throw — regardless of per-record
failures.  A failed pull, an empty push, or a throwing push leaves the
cursor unchanged. -/
theorem cursor_advance_amended (s : Store) (uid : String) (api : Api)
    (now fuel : Nat) :
    (∀ (s2 : Store) (plr : PullResult),
      pullFromServer s uid api now fuel = some (s2, plr) →
      (plr.success = true → s2.lastSyncTime = some now)
      ∧ (plr.success = false → s2.lastSyncTime = s.lastSyncTime))
    ∧ (getPendingSyncRecords s = [] →
        (syncPendingRecords s uid api now).1 = s)
    ∧ (∀ (s2 : Store) (pr : PushResult), getPendingSyncRecords s ≠ [] →
        syncPendingRecords s uid api now = (s2, Except.ok pr) →
        s2.lastSyncTime = some now)
    ∧ (∀ (s2 : Store) (m : String),
        syncPendingRecords s uid api now = (s2, Except.error m) →
        s2.lastSyncTime = s.lastSyncTime) := by
  refine ⟨?_, ?_, ?_, ?_⟩
  · intro s2 plr h
    simp only [pullFromServer] at h
    split at h
    · exact absurd h (by simp)
    · simp only [Option.some.injEq, Prod.mk.injEq] at h
      constructor
      · intro hsucc; rw [← h.2] at hsucc; simp at hsucc
      · intro _; rw [← h.1]
    · rename_i serverEntries hfetch
      split at h
      · rename_i s2m m hma
        simp only [Option.some.injEq, Prod.mk.injEq] at h
        constructor
        · intro hsucc; rw [← h.2] at hsucc; simp at hsucc
        · intro _
          rw [← h.1]
          have := mergeAll_lastSync (getAllRecords s) now serverEntries s 0 0
          rw [hma] at this
          exact this
      · rename_i s2m a u hma
        simp only [Option.some.injEq, Prod.mk.injEq] at h
        constructor
        · intro _; rw [← h.1]; rfl
        · intro hsucc; rw [← h.2] at hsucc; simp at hsucc
  · intro hpend
    simp only [syncPendingRecords, hpend, List.length_nil, if_pos]
  · intro s2 pr hpend h
    simp only [syncPendingRecords] at h
    split at h
    · rename_i hlen
      exact absurd (List.length_eq_zero.mp hlen) hpend
    · split at h
      · exact absurd h (by simp)
      · simp only [Prod.mk.injEq, Except.ok.injEq] at h
        rw [← h.1]
        rfl
  · intro s2 m h
    simp only [syncPendingRecords] at h
    split at h
    · exact absurd h (by simp)
    · split at h
      · rename_i s4 e hloop
        simp only [Prod.mk.injEq, Except.error.injEq] at h
        rw [← h.1]
        have := pushLoop_lastSync uid api now (getPendingSyncRecords s) s
        rw [hloop] at this
        exact this
      · exact absurd h (by simp)

/-- Witness for C4 (amended): a failing push with one pending record
stamps the cursor; a successful empty pull stamps the cursor. -/
theorem cursor_advance_amended_witness :
    storeAfterFailPush.lastSyncTime = some 5
    ∧ (setLastSyncTime storeOnePending 7).lastSyncTime = some 7 :=
  ⟨(cursor_advance_amended storeOnePending userA apiFailAll 5 0).2.2.1
      storeAfterFailPush prFail (by decide) (by decide),
   ((cursor_advance_amended storeOnePending userA apiEmptyOk 7 2).1
      (setLastSyncTime storeOnePending 7) pullOkEmpty (by decide)).1 rfl⟩

/-- C3: in the batch push, a record whose sync fails leaves the store (and
hence the record, still synced = false) unchanged; a failure appends a
(recordId, error) pair and does not stop the loop; the result counts
satisfy synced + failed = total = number of pending records, one error per
failure, and success holds exactly when failed = 0. -/
theorem push_batch_isolation (s : Store) (uid : String) (api : Api)
    (now : Nat) :
    (∀ (s0 : Store) (r : LocalRecord),
      ((syncSingleRecord s0 r uid api now).2).success = false →
      (syncSingleRecord s0 r uid api now).1 = s0)
    ∧ (∀ (s2 : Store) (pr : PushResult),
        syncPendingRecords s uid api now = (s2, Except.ok pr) →
        pr.success = (pr.failed == 0)
        ∧ pr.synced + pr.failed = pr.total
        ∧ pr.total = (getPendingSyncRecords s).length
        ∧ pr.errors.length = pr.failed)
    ∧ (∀ (s0 : Store) (r : LocalRecord) (tl : List LocalRecord) (s3 : Store)
        (sy fa : Nat) (errs : List (String × String)),
        ((syncSingleRecord s0 r uid api now).2).success = false →
        pushLoop uid api now s0 tl = (s3, Except.ok (sy, fa, errs)) →
        pushLoop uid api now s0 (r :: tl) =
          (s3, Except.ok (sy, fa + 1,
            (r.id, errStrOf ((syncSingleRecord s0 r uid api now).2).error)
              :: errs))) := by
  refine ⟨fun s0 r h => syncSingleRecord_fail s0 r uid api now h, ?_,
    fun s0 r tl s3 sy fa errs hf hr =>
      pushLoop_cons_fail uid api now s0 r tl hf s3 sy fa errs hr⟩
  intro s2 pr h
  simp only [syncPendingRecords] at h
  split at h
  · rename_i hlen
    simp only [Prod.mk.injEq, Except.ok.injEq] at h
    rw [← h.2]
    refine ⟨rfl, rfl, ?_, rfl⟩
    simp [hlen]
  · split at h
    · exact absurd h (by simp)
    · rename_i s4 sy fa errs hloop
      simp only [Prod.mk.injEq, Except.ok.injEq] at h
      rw [← h.2]
      obtain ⟨hcount, herr⟩ :=
        pushLoop_counts uid api now (getPendingSyncRecords s) s s4 sy fa
          errs hloop
      exact ⟨rfl, hcount, rfl, herr⟩

/-- Witness for C3: with a server rejecting every request and one pending
record, the failed attempt leaves the store unchanged and the statistics
are consistent. -/
theorem push_batch_isolation_witness :
    (syncSingleRecord storeOnePending recPending userA apiFailAll 5).1 =
      storeOnePending
    ∧ (prFail.success = (prFail.failed == 0)
        ∧ prFail.synced + prFail.failed = prFail.total
        ∧ prFail.total = (getPendingSyncRecords storeOnePending).length
        ∧ prFail.errors.length = prFail.failed) :=
  ⟨(push_batch_isolation storeOnePending userA apiFailAll 5).1
      storeOnePending recPending (by decide),
   (push_batch_isolation storeOnePending userA apiFailAll 5).2.1
      storeAfterFailPush prFail (by decide)⟩

/-- C5 counterexample: the pending list is processed in store order, which
is newest-first — addRecord prepends.  With two records created at times 1
and 2 (added in that order), the pending snapshot lists createdAt 2 before
createdAt 1, and the push loop attempts the younger record first, as the
order of the recorded errors shows — refuting oldest-first processing. -/
theorem push_order_counterexample :
    ((getPendingSyncRecords storeTwoPending).map LocalRecord.createdAt
       = [2, 1])
    ∧ (syncPendingRecords storeTwoPending userA apiFailAll 9).2 =
        Except.ok { success := false, synced := 0, failed := 2, total := 2,
                    errors := [(genB, serverErrMsg), (genA, serverErrMsg)] }
      := by
  constructor <;> decide

/-- C5 (amended): the push phase attempts the pending records exactly in
the order of the store snapshot (records.filter synced = false), and
addRecord prepends, so the store order is newest-first by insertion; there
is no oldest-first sort by createdAt. -/
theorem push_order_amended (s : Store) (uid : String) (api : Api)
    (now : Nat)
    (hfail : ∀ (s0 : Store) (r : LocalRecord),
      ((syncSingleRecord s0 r uid api now).2).success = false) :
    (∀ (s3 : Store) (sy fa : Nat) (errs : List (String × String)),
      pushLoop uid api now s (getPendingSyncRecords s) =
        (s3, Except.ok (sy, fa, errs)) →
      errs.map Prod.fst = (getPendingSyncRecords s).map LocalRecord.id)
    ∧ (∀ (r : NewRecord) (g : String) (n : Nat),
        ((addRecord s r g n).1).records =
          (addRecord s r g n).2 :: s.records) := by
  constructor
  · intro s3 sy fa errs h
    rw [pushLoop_allfail uid api now hfail (getPendingSyncRecords s) s] at h
    simp only [Prod.mk.injEq, Except.ok.injEq] at h
    rw [← h.2.2.2]
    simp [List.map_map, Function.comp]
  · intro r g n
    exact addRecord_records s r g n

/-- Witness for C5 (amended): the concrete two-record store yields error
ids in snapshot order, and addRecord prepends there. -/
theorem push_order_amended_witness :
    ([(genB, serverErrMsg), (genA, serverErrMsg)].map Prod.fst =
      (getPendingSyncRecords storeTwoPending).map LocalRecord.id)
    ∧ ((addRecord storeTwoPending emptyNew genA 3).1).records =
        (addRecord storeTwoPending emptyNew genA 3).2 ::
          storeTwoPending.records :=
  ⟨(push_order_amended storeTwoPending userA apiFailAll 9
      (fun s0 r => apiFailAll_fails s0 r userA 9)).1 storeTwoPending 0 2
      [(genB, serverErrMsg), (genA, serverErrMsg)] (by decide),
   (push_order_amended storeTwoPending userA apiFailAll 9
      (fun s0 r => apiFailAll_fails s0 r userA 9)).2 emptyNew genA 3⟩

/-- C6: fullSync returns a structured failure with the store untouched
(and the push/pull fields unset, i.e. neither phase invoked) when the
network is unreachable, the health check throws, or the health check
reports not connected; otherwise it runs push then pull and its success is
the conjunction of the two phase successes. -/
theorem fullSync_preconditions (s : Store) (uid : String) (online : Bool)
    (api : Api) (now fuel : Nat) :
    (online = false →
      fullSync s uid online api now fuel =
        some (s, { success := false, error := some offlineMsg }))
    ∧ (∀ m : String, online = true → api.checkHealth = Except.error m →
        fullSync s uid online api now fuel =
          some (s, { success := false
                     error := some (healthFailMsg ++ m) }))
    ∧ (∀ h : HealthResp, online = true → api.checkHealth = Except.ok h →
        h.connected = false →
        fullSync s uid online api now fuel =
          some (s, { success := false, error := some serverDownMsg }))
    ∧ (∀ (h : HealthResp) (s1 : Store) (pr : PushResult) (s2 : Store)
        (plr : PullResult),
        online = true → api.checkHealth = Except.ok h →
        h.connected = true →
        syncPendingRecords s uid api now = (s1, Except.ok pr) →
        pullFromServer s1 uid api now fuel = some (s2, plr) →
        fullSync s uid online api now fuel =
          some (s2, { success := pr.success && plr.success
                      push := some pr, pull := some plr })) := by
  refine ⟨?_, ?_, ?_, ?_⟩
  · intro hoff
    simp [fullSync, hoff]
  · intro m hon hh
    simp [fullSync, hon, hh]
  · intro h hon hh hc
    simp [fullSync, hon, hh, hc]
  · intro h s1 pr s2 plr hon hh hc hpush hpull
    simp [fullSync, hon, hh, hc, hpush, hpull]

/-- Witness for C6: offline yields the typed failure with untouched store;
online with a healthy empty server runs push then pull and succeeds. -/
theorem fullSync_preconditions_witness :
    fullSync emptyStore userA false apiFailAll 1 1 =
      some (emptyStore, { success := false, error := some offlineMsg })
    ∧ fullSync emptyStore userA true apiEmptyOk 7 2 =
        some (setLastSyncTime emptyStore 7,
          { success := prEmpty.success && pullOkEmpty.success
            push := some prEmpty, pull := some pullOkEmpty }) :=
  ⟨(fullSync_preconditions emptyStore userA false apiFailAll 1 1).1 rfl,
   (fullSync_preconditions emptyStore userA true apiEmptyOk 7 2).2.2.2
      { connected := true } emptyStore prEmpty
      (setLastSyncTime emptyStore 7) pullOkEmpty rfl rfl rfl
      (by decide) (by decide)⟩

/-- C7: when a record has a pending local video and the media upload
fails, the failure is swallowed: the metadata push proceeds with a null
video payload (record.serverVideoData being empty), the call succeeds, the
store is untouched (so videoUploaded stays false for a future retry), and
a later markRecordAsSynced sets synced without touching videoUploaded. -/
theorem media_failure_decoupled (s : Store) (record : LocalRecord)
    (uid : String) (api : Api) (now : Nat) (uri msg : String)
    (result : RemoteEntry)
    (hvu : jsStrOpt record.videoUri = some uri)
    (hscheme : startsWithList uri.data fileUriScheme.data = true)
    (hnotup : record.videoUploaded = false)
    (hupfail : api.uploadVideo uri uid = Except.error msg)
    (hsid : record.serverId = none)
    (hsv : record.serverVideoData = none)
    (hcreate : api.createEntry (mkEntryData record uid none) =
      Except.ok result)
    (hrv : result.video = none) :
    syncSingleRecord s record uid api now =
      (s, { success := true, serverId := some result.mongoId })
    ∧ (mkEntryData record uid none).video = none
    ∧ (∀ (r : LocalRecord) (sid : Option String) (t : Nat),
        (applyUpdates r (markSyncedUpdates sid t) t).synced = true
        ∧ (applyUpdates r (markSyncedUpdates sid t) t).videoUploaded =
            r.videoUploaded) := by
  have hv : attemptVideoUpload record uid api = none := by
    simp [attemptVideoUpload, hvu, hnotup, hscheme, hupfail]
  refine ⟨?_, by simp [mkEntryData, hsv], fun r sid t => ⟨rfl, rfl⟩⟩
  simp only [syncSingleRecord, hv, hsid, hcreate, finishSuccess, hrv, hsv]
  rfl

/-- Witness for C7: the concrete record with a pending file:// video and
an always-failing upload pipeline still pushes its metadata. -/
theorem media_failure_decoupled_witness :
    syncSingleRecord storeOnePending recWithVideo userA apiUploadFails 5 =
      (storeOnePending, { success := true, serverId := some entC7.mongoId })
    ∧ (mkEntryData recWithVideo userA none).video = none :=
  ⟨(media_failure_decoupled storeOnePending recWithVideo userA
      apiUploadFails 5 vidUri netFailMsg entC7 (by decide) (by decide) rfl
      rfl rfl rfl (by decide) rfl).1,
   (media_failure_decoupled storeOnePending recWithVideo userA
      apiUploadFails 5 vidUri netFailMsg entC7 (by decide) (by decide) rfl
      rfl rfl rfl (by decide) rfl).2.1⟩

/-! Helper lemmas for saveRecord. -/

theorem jsStrOr_idem (a : Option String) (d : String) :
    jsStrOr (some (jsStrOr a d)) d = jsStrOr a d := by
  rcases a with _ | x
  · by_cases hd : d = "" <;> simp [jsStrOr, jsStrOpt, hd]
  · by_cases hx : x = "" <;> by_cases hd : d = "" <;>
      simp [jsStrOr, jsStrOpt, hx, hd]

theorem updateInList_cons_of_eq (hd : LocalRecord) (tl : List LocalRecord)
    (id : String) (u : Updates) (now : Nat) (h : hd.id = id) :
    updateInList id u now (hd :: tl) =
      some (applyUpdates hd u now :: tl, applyUpdates hd u now) := by
  unfold updateInList
  rw [if_pos h]

theorem updateRecord_cons (s : Store) (hd : LocalRecord)
    (tl : List LocalRecord) (id : String) (u : Updates) (now : Nat)
    (hs : s.records = hd :: tl) (h : hd.id = id) :
    updateRecord s id u now =
      Except.ok ({ s with records := applyUpdates hd u now :: tl },
        applyUpdates hd u now) := by
  unfold updateRecord
  rw [hs, updateInList_cons_of_eq hd tl id u now h]

theorem finishSuccess_cons (s : Store) (hd : LocalRecord)
    (tl : List LocalRecord) (record : LocalRecord)
    (videoData : Option Video) (result : RemoteEntry) (now : Nat)
    (hs : s.records = hd :: tl) (hid : hd.id = record.id) :
    ∃ hd2, ((finishSuccess s record videoData result now).1).records =
        hd2 :: tl ∧ hd2.id = hd.id ∧ hd2.synced = hd.synced := by
  simp only [finishSuccess]
  split
  · rename_i v hv
    rw [updateRecord_cons s hd tl record.id _ now hs hid]
    exact ⟨applyUpdates hd _ now, rfl, rfl, rfl⟩
  · exact ⟨hd, hs, rfl, rfl⟩

theorem syncSingleRecord_cons (s : Store) (hd : LocalRecord)
    (tl : List LocalRecord) (r : LocalRecord) (uid : String) (api : Api)
    (now : Nat) (hs : s.records = hd :: tl) (hid : hd.id = r.id) :
    ∃ hd2, (((syncSingleRecord s r uid api now).1).records = hd2 :: tl)
      ∧ hd2.id = hd.id ∧ hd2.synced = hd.synced := by
  simp only [syncSingleRecord]
  split
  · split
    · exact ⟨hd, hs, rfl, rfl⟩
    · exact finishSuccess_cons s hd tl r _ _ now hs hid
  · split
    · exact finishSuccess_cons s hd tl r _ _ now hs hid
    · split
      · split
        · split
          · exact ⟨hd, hs, rfl, rfl⟩
          · exact ⟨hd, hs, rfl, rfl⟩
        · exact ⟨hd, hs, rfl, rfl⟩
      · exact ⟨hd, hs, rfl, rfl⟩

/-- C9: saveRecord always persists the record locally first (generated
clientId when absent, synced = false, prepended to the store) and always
returns success = true; the best-effort single-record sync runs only when
the reachability monitor reports online, and its failure is silent: the
saved record is still at the head of the store and, whenever the returned
synced flag is false, still unsynced. -/
theorem saveRecord_local_first (s : Store) (recordData : NewRecord)
    (uid : String) (online : Bool) (api : Api) (gid : String) (now : Nat) :
    ((saveRecord s recordData uid online api gid now).2).success = true
    ∧ (((saveRecord s recordData uid online api gid now).2).autoSync.attempted
          = true → online = true)
    ∧ (∃ hd,
        (((saveRecord s recordData uid online api gid now).1).records).head?
            = some hd
        ∧ hd.id = jsStrOr recordData.id gid
        ∧ (((saveRecord s recordData uid online api gid now).2).synced = false
            → hd.synced = false)) := by
  by_cases hcond : (online && uid ≠ "") = true
  · have honline : online = true := by
      rcases online with _ | _
      · simp at hcond
      · rfl
    simp only [saveRecord]
    set lr : NewRecord :=
      { recordData with
        id := some (jsStrOr recordData.id gid)
        createdAt := some (recordData.createdAt.getD now)
        synced := false } with hlr
    set stored : LocalRecord := (addRecord s lr gid now).2 with hstored
    have hrecs : ((addRecord s lr gid now).1).records = stored :: s.records :=
      addRecord_records s lr gid now
    have hidst : stored.id = jsStrOr recordData.id gid :=
      jsStrOr_idem recordData.id gid
    have hsyst : stored.synced = false := rfl
    rw [if_pos hcond]
    obtain ⟨hd2, hrec2, hid2, hsy2⟩ :=
      syncSingleRecord_cons (addRecord s lr gid now).1 stored s.records
        stored uid api now hrecs rfl
    split
    · simp only [markRecordAsSynced]
      rw [updateRecord_cons
        (syncSingleRecord (addRecord s lr gid now).1 stored uid api now).1
        hd2 s.records stored.id _ now hrec2 hid2]
      refine ⟨rfl, fun _ => honline,
        ⟨applyUpdates hd2 (markSyncedUpdates
          ((syncSingleRecord (addRecord s lr gid now).1 stored uid api
            now).2).serverId now) now, rfl, ?_, ?_⟩⟩
      · rw [applyUpdates_id, hid2, hidst]
      · intro hsy
        exact absurd hsy (by simp)
    · refine ⟨rfl, fun _ => honline,
        ⟨hd2, ?_, hid2.trans hidst, fun _ => hsy2.trans hsyst⟩⟩
      rw [hrec2]
      rfl
  · simp only [saveRecord]
    set lr : NewRecord :=
      { recordData with
        id := some (jsStrOr recordData.id gid)
        createdAt := some (recordData.createdAt.getD now)
        synced := false } with hlr
    set stored : LocalRecord := (addRecord s lr gid now).2 with hstored
    have hrecs : ((addRecord s lr gid now).1).records = stored :: s.records :=
      addRecord_records s lr gid now
    rw [if_neg hcond]
    refine ⟨rfl, ?_, ⟨stored, ?_, jsStrOr_idem recordData.id gid,
      fun _ => rfl⟩⟩
    · intro h
      exact absurd h (by simp)
    · rw [hrecs]
      rfl

/-- Witness for C9: offline save stores the record unsynced yet reports
success, and an online save with a rejecting server still reports success
with the record unsynced at the head. -/
theorem saveRecord_local_first_witness :
    ((saveRecord emptyStore emptyNew userA false apiFailAll genA 4).2).success
        = true
    ∧ ((saveRecord emptyStore emptyNew userA true apiFailAll genA 4).2).success
        = true := by
  constructor
  · exact (saveRecord_local_first emptyStore emptyNew userA false apiFailAll
      genA 4).1
  · exact (saveRecord_local_first emptyStore emptyNew userA true apiFailAll
      genA 4).1

/-! Helper lemma for pagination. -/

theorem fetchPages_bounded (api : Api) (uid : String) (B : Nat)
    (hb : ∀ (q : GetQuery) (resp : EntriesResponse),
      api.getEntries q = Except.ok resp →
      ∀ t2, reportedTotals resp = some t2 → t2 ≤ B) :
    ∀ (fuel page tot : Nat) (acc : List RemoteEntry),
      1 ≤ fuel → B + 2 ≤ page + fuel → tot ≤ B →
      (fetchPages api uid fuel page tot acc).isSome = true := by
  intro fuel
  induction fuel with
  | zero =>
    intro page tot acc h1 _ _
    omega
  | succ f ih =>
    intro page tot acc h1 h2 htot
    simp only [fetchPages]
    split
    · rfl
    · rename_i hpt
      have hple : page ≤ tot := by omega
      split
      · split
        · rfl
        · rfl
      · rename_i resp hresp
        split
        · rename_i tot2 hrt
          have hb2 := hb _ _ hresp tot2 hrt
          split
          · rfl
          · exact ih (page + 1) tot2 _ (by omega) (by omega) hb2
        · split
          · rfl
          · split
            · rfl
            · exact ih (page + 1) tot _ (by omega) (by omega) htot

/-- C8: the page-fetch loop terminates whenever every reported page count
(total_pages, or the count derived from total) is bounded — which covers a
short page with no reported count, an empty page, and servers that report
any fixed page count; and a 404 (or Not Found) on a page after the first
ends pagination with the entries gathered so far rather than failing. -/
theorem pagination_terminates (api : Api) (uid : String) (B : Nat)
    (hB : 1 ≤ B)
    (hb : ∀ (q : GetQuery) (resp : EntriesResponse),
      api.getEntries q = Except.ok resp →
      ∀ t2, reportedTotals resp = some t2 → t2 ≤ B) :
    (∀ fuel, B + 1 ≤ fuel →
      (fetchPages api uid fuel 1 1 []).isSome = true)
    ∧ (∀ (fuel page tot : Nat) (acc : List RemoteEntry) (msg : String),
        page ≤ tot → 2 ≤ page →
        api.getEntries (pageQuery uid page) = Except.error msg →
        (strIncludes msg notFoundToken || strIncludes msg notFoundText)
          = true →
        fetchPages api uid (fuel + 1) page tot acc =
          some (Except.ok acc)) := by
  constructor
  · intro fuel hf
    exact fetchPages_bounded api uid B hb fuel 1 1 [] (by omega) (by omega)
      hB
  · intro fuel page tot acc msg hpt h2 herr h404
    simp only [fetchPages, herr]
    rw [if_neg (by omega)]
    simp [h404]

/-- Witness for C8: a server that 404s on every page terminates at once
from page 1, and a 404 at page 2 ends pagination keeping the page-1
entries. -/
theorem pagination_terminates_witness :
    (fetchPages apiAll404 userA 2 1 1 []).isSome = true
    ∧ fetchPages apiAll404 userA 1 2 2 [entC7] =
        some (Except.ok [entC7]) :=
  ⟨(pagination_terminates apiAll404 userA 1 (by decide)
      (fun q resp h => by simp [apiAll404, apiFailAll] at h)).1 2
      (by decide),
   (pagination_terminates apiAll404 userA 1 (by decide)
      (fun q resp h => by simp [apiAll404, apiFailAll] at h)).2 0 2 2
      [entC7] msg404 (by decide) (by decide) (by decide) (by decide)⟩

/-! Helper lemmas for the conflict-recovery scenario. -/

theorem countClientId_zero_all (cid : String) (server : List RemoteEntry)
    (h : countClientId server cid = 0) :
    ∀ x ∈ server, (x.client_id == some cid) = false := by
  intro x hx
  have hnil : server.filter (fun e => e.client_id == some cid) = [] :=
    List.length_eq_zero.mp h
  have := List.filter_eq_nil_iff.mp hnil x hx
  exact Bool.eq_false_iff.mpr this

theorem countClientId_zero_any (cid : String) (server : List RemoteEntry)
    (h : countClientId server cid = 0) :
    (server.any (fun x => x.client_id == some cid)) = false := by
  cases hany : server.any (fun x => x.client_id == some cid) with
  | false => rfl
  | true =>
    obtain ⟨x, hx, hpx⟩ := List.any_eq_true.mp hany
    rw [countClientId_zero_all cid server h x hx] at hpx
    cases hpx

theorem find?_append_all_false {α : Type} (p : α → Bool) :
    ∀ (l1 l2 : List α), (∀ x ∈ l1, p x = false) →
    List.find? p (l1 ++ l2) = List.find? p l2 := by
  intro l1
  induction l1 with
  | nil => intro l2 _; rfl
  | cons a tl ih =>
    intro l2 h
    have hpa := h a (List.mem_cons_self a tl)
    simp only [List.cons_append, List.find?, hpa]
    exact ih l2 (fun x hx => h x (List.mem_cons_of_mem a hx))

theorem countClientId_append (cid : String) (l1 l2 : List RemoteEntry) :
    countClientId (l1 ++ l2) cid =
      countClientId l1 cid + countClientId l2 cid := by
  simp [countClientId, List.filter_append]

theorem syncSingleRecord_create_ok (s : Store) (record : LocalRecord)
    (uid : String) (api : Api) (now : Nat) (result : RemoteEntry)
    (hvid : attemptVideoUpload record uid api = none)
    (hsid : record.serverId = none)
    (hsv : record.serverVideoData = none)
    (hcreate : api.createEntry (mkEntryData record uid none) =
      Except.ok result)
    (hrv : result.video = none) :
    syncSingleRecord s record uid api now =
      (s, { success := true, serverId := some result.mongoId }) := by
  simp only [syncSingleRecord, hvid, hsid, hcreate, finishSuccess, hrv, hsv]
  rfl

theorem syncSingleRecord_conflict (s : Store) (record : LocalRecord)
    (uid : String) (api : Api) (now : Nat) (msg : String)
    (resp : EntriesResponse) (ex : RemoteEntry)
    (hvid : attemptVideoUpload record uid api = none)
    (hsid : record.serverId = none)
    (hcreate : api.createEntry (mkEntryData record uid none) =
      Except.error msg)
    (hconf : strIncludes msg conflictToken = true)
    (hq : api.getEntries { user_id := uid, limit := some 100 } =
      Except.ok resp)
    (hfind : (resp.entries.getD []).find?
      (fun e => e.client_id == some record.id) = some ex) :
    syncSingleRecord s record uid api now =
      (s, { success := true, serverId := some ex.mongoId
            alreadyExists := true }) := by
  simp only [syncSingleRecord, hvid, hsid, hcreate]
  rw [if_pos hconf]
  simp only [hq, hfind]

/-- C2 (spec-modelled backend): a create rejected with a 409 conflict is
recovered by querying the existing entries and adopting the existing
serverId; pushing the same never-acknowledged record twice against the
spec-modelled server leaves exactly one remote entry with its client_id,
the second push succeeding via alreadyExists without touching the server
or the store. -/
theorem push_conflict_recovery_idempotent (s : Store)
    (record : LocalRecord) (uid : String) (server : List RemoteEntry)
    (nid nid2 : String) (t t2 : Nat)
    (hsid : record.serverId = none)
    (hsv : record.serverVideoData = none)
    (hvu : record.videoUri = none)
    (hhv : record.hasVideo = false)
    (hfresh : countClientId server record.id = 0) :
    ((pushOnce s record uid server nid t).1.2).success = true
    ∧ (pushOnce s record uid server nid t).1.1 = s
    ∧ countClientId (pushOnce s record uid server nid t).2 record.id = 1
    ∧ ((pushOnce s record uid (pushOnce s record uid server nid t).2 nid2
          t2).1.2).success = true
    ∧ ((pushOnce s record uid (pushOnce s record uid server nid t).2 nid2
          t2).1.2).alreadyExists = true
    ∧ ((pushOnce s record uid (pushOnce s record uid server nid t).2 nid2
          t2).1.2).serverId = some nid
    ∧ (pushOnce s record uid (pushOnce s record uid server nid t).2 nid2
          t2).2 = (pushOnce s record uid server nid t).2 := by
  have hvid : ∀ api : Api, attemptVideoUpload record uid api = none := by
    intro api
    simp [attemptVideoUpload, hvu, hhv, jsStrOpt]
  have hed : (mkEntryData record uid none).client_id = record.id := rfl
  have hedv : (mkEntryData record uid none).video = none := by
    simp [mkEntryData, hsv]
  have hany1 :
      (server.any (fun x =>
        x.client_id == some (mkEntryData record uid none).client_id))
        = false := by
    rw [hed]
    exact countClientId_zero_any record.id server hfresh
  have hsrv1 : (pushOnce s record uid server nid t).2 =
      server ++ [toRemoteEntry (mkEntryData record uid none) nid t] := by
    simp only [pushOnce, hvid, specCreateEntry, hany1, Bool.false_eq_true,
      if_false]
  have hre : (toRemoteEntry (mkEntryData record uid none) nid t).client_id
      = some record.id := rfl
  have hv2 : (toRemoteEntry (mkEntryData record uid none) nid t).video
      = none := by simp [toRemoteEntry, hedv]
  have hcreate1 :
      (apiOfServer server nid t).createEntry (mkEntryData record uid none)
        = Except.ok (toRemoteEntry (mkEntryData record uid none) nid t) := by
    simp only [apiOfServer]
    unfold specCreateEntry
    rw [if_neg (by rw [hany1]; exact Bool.false_ne_true)]
  have hpush1 :
      syncSingleRecord s record uid (apiOfServer server nid t) t =
        (s, { success := true, serverId := some nid }) :=
    syncSingleRecord_create_ok s record uid (apiOfServer server nid t) t
      (toRemoteEntry (mkEntryData record uid none) nid t) (hvid _) hsid hsv
      hcreate1 hv2
  have hcount1 :
      countClientId (pushOnce s record uid server nid t).2 record.id = 1
      := by
    rw [hsrv1, countClientId_append, hfresh]
    simp [countClientId, hre]
  have hany2 :
      ((server ++ [toRemoteEntry (mkEntryData record uid none) nid t]).any
        (fun x =>
          x.client_id == some (mkEntryData record uid none).client_id))
        = true := by
    rw [hed]
    simp [List.any_append, hre]
  have hfind :
      List.find? (fun e => e.client_id == some record.id)
        (server ++ [toRemoteEntry (mkEntryData record uid none) nid t]) =
        some (toRemoteEntry (mkEntryData record uid none) nid t) := by
    rw [find?_append_all_false _ server _
      (countClientId_zero_all record.id server hfresh)]
    simp [List.find?, hre]
  have hconf : strIncludes conflictMsg conflictToken = true := by decide
  have hcreate2 :
      (apiOfServer
          (server ++ [toRemoteEntry (mkEntryData record uid none) nid t])
          nid2 t2).createEntry (mkEntryData record uid none) =
        Except.error conflictMsg := by
    simp only [apiOfServer]
    unfold specCreateEntry
    rw [if_pos hany2]
  have hpush2 :
      syncSingleRecord s record uid
        (apiOfServer
          (server ++ [toRemoteEntry (mkEntryData record uid none) nid t])
          nid2 t2) t2 =
        (s, { success := true, serverId := some nid
              alreadyExists := true }) :=
    syncSingleRecord_conflict s record uid
      (apiOfServer
        (server ++ [toRemoteEntry (mkEntryData record uid none) nid t])
        nid2 t2) t2 conflictMsg
      { entries :=
          some (server ++ [toRemoteEntry (mkEntryData record uid none) nid t]) }
      (toRemoteEntry (mkEntryData record uid none) nid t) (hvid _) hsid
      hcreate2 hconf rfl hfind
  refine ⟨?_, ?_, hcount1, ?_, ?_, ?_, ?_⟩
  · simp [pushOnce, hpush1]
  · simp [pushOnce, hpush1]
  · rw [hsrv1]; simp [pushOnce, hpush2]
  · rw [hsrv1]; simp [pushOnce, hpush2]
  · rw [hsrv1]; simp [pushOnce, hpush2]
  · rw [hsrv1]
    simp only [pushOnce, hvid]
    unfold specCreateEntry
    rw [if_pos hany2]

/-- Witness for C2: a concrete record pushed twice against an initially
empty spec-modelled server ends with exactly one remote entry and an
alreadyExists success. -/
theorem push_conflict_recovery_idempotent_witness :
    countClientId (pushOnce emptyStore recC2 userA [] genB 3).2 recC2.id = 1
    ∧ ((pushOnce emptyStore recC2 userA
          (pushOnce emptyStore recC2 userA [] genB 3).2
          userA 4).1.2).alreadyExists = true
    ∧ (pushOnce emptyStore recC2 userA
          (pushOnce emptyStore recC2 userA [] genB 3).2 userA 4).2 =
        (pushOnce emptyStore recC2 userA [] genB 3).2 :=
  ⟨(push_conflict_recovery_idempotent emptyStore recC2 userA [] genB userA
      3 4 rfl rfl rfl rfl (by decide)).2.2.1,
   (push_conflict_recovery_idempotent emptyStore recC2 userA [] genB userA
      3 4 rfl rfl rfl rfl (by decide)).2.2.2.2.1,
   (push_conflict_recovery_idempotent emptyStore recC2 userA [] genB userA
      3 4 rfl rfl rfl rfl (by decide)).2.2.2.2.2.2⟩

end EmoGo
